import Mathlib

/-!
A shallow embedding of the lexer (`src/lex.cc`) and the pipeline driver
(`src/compile.cc`) of the tako compiler front end, together with theorems
about the lexer's token stream.

Source strings are modelled as byte lists (`List Nat`), matching the C++
`std::string` byte semantics (the operator character set contains multi-byte
UTF-8 sequences, which `std::string::find` searches byte by byte).
-/

namespace Tako

/-- Token kinds, from the `TokenType` enumeration used by `src/lex.cc`
(the variants actually produced by the lexer). -/
inductive TokenType where
  | OpenParen | CloseParen | OpenBrace | CloseBrace | OpenBracket | CloseBracket
  | SemiColon | PreCond | PostCond | Comma
  | StringLiteral | WhiteSpace | Operator | NumberLiteral | Symbol | Error
deriving DecidableEq, Repr

/-- Message severities (`MessageType`). -/
inductive MessageType where
  | Info | Warning | Error | InternalError
deriving DecidableEq, Repr

/-- A source location: `{start, length, file}`. -/
structure Location where
  start : Nat
  length : Nat
  file : String
deriving DecidableEq, Repr

/-- A token: kind plus location. -/
structure Token where
  type : TokenType
  loc : Location
deriving DecidableEq, Repr

/-- A diagnostic message, as appended by `Context::msg(loc, type, text)`. -/
structure Message where
  type : MessageType
  loc : Location
  msg : String
deriving DecidableEq, Repr

/-! ### Character classes (`src/lex.cc` lines 8-16), as byte lists -/

def lower : List Nat :=
  [97, 98, 99, 100, 101, 102, 103, 104, 105, 106, 107, 108, 109,
   110, 111, 112, 113, 114, 115, 116, 117, 118, 119, 120, 121, 122]

def upper : List Nat :=
  [65, 66, 67, 68, 69, 70, 71, 72, 73, 74, 75, 76, 77,
   78, 79, 80, 81, 82, 83, 84, 85, 86, 87, 88, 89, 90]

def nums : List Nat := [48, 49, 50, 51, 52, 53, 54, 55, 56, 57]

/-- The whitespace byte set `" \t\n\r"`. -/
def whiteSpace : List Nat := [32, 9, 10, 13]

/-- The number character set `"."+nums`. -/
def numberChar : List Nat := 46 :: nums

/-- The operator character set `"-+&#@<>^~∆%•|=÷×°$\\/*:?!."` — the three-byte UTF-8 sequences of
`∆` and `•` and the two-byte sequences of `÷`, `×`, `°` appear as their
individual bytes, exactly as `std::string::find(char)` sees them. -/
def operatorChar : List Nat :=
  [45, 43, 38, 35, 64, 60, 62, 94, 126,
   226, 136, 134,
   37,
   226, 128, 162,
   124, 61,
   195, 183,
   195, 151,
   194, 176,
   36, 92, 47, 42, 58, 63, 33, 46]

/-- The symbol character set `lower+upper+nums+"_"`. -/
def symbolChar : List Nat := lower ++ upper ++ nums ++ [95]

/-- The quote set: single quote 39, double quote 34, back quote 96. -/
def quotes : List Nat := [39, 34, 96]

/-- The literal punctuation table `matchToken` (`src/lex.cc` lines 18-32). -/
def matchToken : List (List Nat × TokenType) :=
  [([40], TokenType.OpenParen),
   ([41], TokenType.CloseParen),
   ([123], TokenType.OpenBrace),
   ([125], TokenType.CloseBrace),
   ([91], TokenType.OpenBracket),
   ([93], TokenType.CloseBracket),
   ([59], TokenType.SemiColon),
   ([45, 124], TokenType.PreCond),
   ([124, 45], TokenType.PostCond),
   ([44], TokenType.Comma)]

/-! ### String literal scanning (`consumeStringLiteral`, lines 34-49) -/

/-- The `while(len < content.size() && content[len] != start) len++;` scan
followed by `if (len < content.size()) len++;`, measured on the part of the
content after the opening quote: returns how many bytes that part
contributes to the literal's length. -/
def strClose (q : Nat) : List Nat → Nat
  | [] => 0
  | c :: cs => if c = q then 1 else 1 + strClose q cs

/-- Function `consumeStringLiteral`: if the first byte is a quote, scan (through any
newlines) to the matching quote or to end of input.  Note the C++ body only
has a TODO comment where an unterminated-literal warning would go: no
message is produced here. -/
def consumeStringLiteral : List Nat → Nat
  | [] => 0
  | c :: rest => if c ∈ quotes then 1 + strClose c rest else 0

/-! ### Whitespace and comments (`consumeWhiteSpace`, lines 51-73) -/

/-- The inner block-comment loop
`for(loc++; loc < size; loc++) if(content[loc]=='/' && content[loc-1]=='*') break;`
expressed on the suffix starting two bytes after the `/*`, carrying the
previous byte: number of iterations before the break (or before running
off the end). -/
def blockSkip (prev : Nat) : List Nat → Nat
  | [] => 0
  | c :: cs => if c = 47 ∧ prev = 42 then 0 else 1 + blockSkip c cs

/-- The line-comment loop `for(loc++; loc < size; loc++) if(content[loc]=='\n') break;`
on a suffix: offset of the first newline (or the suffix's length). -/
def lineSkip : List Nat → Nat
  | [] => 0
  | c :: cs => if c = 10 then 0 else 1 + lineSkip cs

/-- Function `consumeWhiteSpace`, on the current suffix.  The outer loop steps over
whitespace bytes; at the first other byte `cur` it may consume one `/* */`
block comment (note the final `loc++` runs even when the comment is
unterminated, which can push the result one past the end of the input),
then — re-testing with the stale `cur` but the advanced position — one
`//` or `#` line comment up to (not including) a newline, and breaks. -/
def wsSkip : List Nat → Nat
  | [] => 0
  | c :: cs =>
    if c ∈ whiteSpace then 1 + wsSkip cs
    else
      let s := c :: cs
      let loc1 := if c = 47 ∧ 1 < s.length ∧ s.getD 1 0 = 42
                  then 2 + blockSkip 42 (s.drop 2) + 1 else 0
      let loc2 := if (c = 47 ∧ loc1 + 1 < s.length ∧ s.getD (loc1 + 1) 0 = 47) ∨ c = 35
                  then (loc1 + 1) + lineSkip (s.drop (loc1 + 1)) else loc1
      loc2

def consumeWhiteSpace (content : List Nat) : Nat := wsSkip content

/-- Function `matchesFrom(chars, content)`: length of the longest prefix drawn from
`chars` (lines 75-83). -/
def matchesFrom (chars : List Nat) : List Nat → Nat
  | [] => 0
  | c :: cs => if c ∈ chars then 1 + matchesFrom chars cs else 0

/-- The test `content.substr(0, tokS.size()) == tokS`: the table entry is a literal
prefix of the content. -/
def tokMatches : List Nat → List Nat → Bool
  | [], _ => true
  | _ :: _, [] => false
  | a :: as, b :: bs => a == b && tokMatches as bs

/-- The loop over the `matchToken` table in `chooseTok`:
first table entry that is a literal prefix of the content. -/
def findTok : List (List Nat × TokenType) → List Nat → Option (TokenType × Nat)
  | [], _ => none
  | (s, t) :: rest, content =>
    if tokMatches s content then some (t, s.length) else findTok rest content

/-- Function `chooseTok` (lines 86-110): classify the token starting the given
suffix and give its length, trying the rules in priority order. -/
def chooseTok (content : List Nat) : TokenType × Nat :=
  match findTok matchToken content with
  | some r => r
  | none =>
    let l1 := consumeStringLiteral content
    if l1 ≠ 0 then (TokenType.StringLiteral, l1)
    else
      let l2 := consumeWhiteSpace content
      if l2 ≠ 0 then (TokenType.WhiteSpace, l2)
      else
        let l3 := matchesFrom operatorChar content
        if l3 ≠ 0 then (TokenType.Operator, l3)
        else
          let l4 := matchesFrom numberChar content
          if l4 ≠ 0 then (TokenType.NumberLiteral, l4)
          else
            let l5 := matchesFrom symbolChar content
            if l5 ≠ 0 then (TokenType.Symbol, l5)
            else (TokenType.Error, 1)

/-! ### The scan loop (`lex`, lines 112-140) -/

/-- One pass of the `lex` scan loop, with an explicit iteration budget so
that the recursion is structural: each loop iteration consumes one unit of
fuel, and (as each iteration that continues advances `pos` by at least 1)
a budget of `content.length` is enough to reproduce the C++ loop exactly
(`lexIter_fuel` below).  Returns the pushed tokens and the emitted
messages, each in emission order. -/
def lexIter (filename : String) (content : List Nat) : Nat → Nat → List Token × List Message
  | 0, _ => ([], [])
  | fuel + 1, pos =>
    if pos < content.length then
      let r := chooseTok (content.drop pos)
      let loc : Location := ⟨pos, r.2, filename⟩
      if r.2 = 0 then
        -- the C++ loop would emit this message and then rescan at the same
        -- position forever; the branch is unreachable (`chooseTok_snd_pos`)
        ([], [⟨MessageType.InternalError, loc, "Illegal empty token"⟩])
      else if r.1 = TokenType.Error then
        let rest := lexIter filename content fuel (pos + r.2)
        (rest.1, ⟨MessageType.Error, loc, "Unexpected character"⟩ :: rest.2)
      else
        let rest := lexIter filename content fuel (pos + r.2)
        (⟨r.1, loc⟩ :: rest.1, rest.2)
    else ([], [])

/-- Function `lex`: scan the whole content from position 0. -/
def lex (filename : String) (content : List Nat) : List Token × List Message :=
  lexIter filename content content.length 0

/-! ### Span instrumentation

The scan loop consumes one span `(type, pos, length)` per iteration whether
or not a token is pushed (`Error` spans are skipped).  `chunksIter` records
that sequence of consumed spans; it follows the loop of `lex` step for
step. -/

def chunksIter (content : List Nat) : Nat → Nat → List (TokenType × Nat × Nat)
  | 0, _ => []
  | fuel + 1, pos =>
    if pos < content.length then
      let r := chooseTok (content.drop pos)
      if r.2 = 0 then []
      else (r.1, pos, r.2) :: chunksIter content fuel (pos + r.2)
    else []

/-- The spans consumed by the scan loop of `lex`, in order. -/
def lexChunks (content : List Nat) : List (TokenType × Nat × Nat) :=
  chunksIter content content.length 0

/-- Predicate `chunksContig p cs`: each span starts exactly where the previous one
ended (the first at `p`) — no gaps, no overlaps. -/
def chunksContig : Nat → List (TokenType × Nat × Nat) → Bool
  | _, [] => true
  | p, (_, s, l) :: rest => decide (s = p) && chunksContig (s + l) rest

/-- Where the last span ends (`p` if there are none). -/
def chunksEnd : Nat → List (TokenType × Nat × Nat) → Nat
  | p, [] => p
  | _, (_, s, l) :: rest => chunksEnd (s + l) rest

/-- Predicate `spansTile p n toks`: the token spans, in order, tile the half-open
range `[p, n)` exactly — each starts where the previous ended and the last
ends at `n`. -/
def spansTile : Nat → Nat → List Token → Bool
  | p, n, [] => decide (p = n)
  | p, n, t :: ts =>
    decide (t.loc.start = p) && spansTile (t.loc.start + t.loc.length) n ts

/-! ### The pipeline driver (`src/compile.cc`) -/

/-- Modelled from the spec: `done()` of the `Context` (declared in the
`lex.h` header, which is absent from the sources) returns true iff the
message log contains at least one `Error` or `InternalError` message. -/
def done (msgs : List Message) : Bool :=
  msgs.any fun m =>
    decide (m.type = MessageType.Error ∨ m.type = MessageType.InternalError)

/-- The compilation context as `getTree` sees it: filename, source text
and the shared message log. -/
structure CompileCtx where
  filename : String
  content : List Nat
  msgs : List Message
deriving Repr

/-- Function `getTree` (`src/compile.cc` lines 7-24), parameterized over the tree
builder `ast::ast` (whose body lives outside these sources).  Returns the
optional tree, the final message log, and — as instrumentation mirroring
the control flow — the list of stages that actually ran. -/
def getTree {T : Type} (build : List Token → List Message → Option T)
    (ctx : CompileCtx) : Option T × List Message × List String :=
  if done ctx.msgs then (none, ctx.msgs, [])
  else
    let r := lex ctx.filename ctx.content
    let msgs1 := ctx.msgs ++ r.2
    if done msgs1 then (none, msgs1, ["lex"])
    else (build r.1 msgs1, msgs1, ["lex", "ast"])

/-! ### Helper lemmas about `chooseTok` -/

theorem findTok_pos {l : List (List Nat × TokenType)} {content : List Nat}
    {t : TokenType} {n : Nat} (hne : ∀ p ∈ l, p.1 ≠ [])
    (h : findTok l content = some (t, n)) : 1 ≤ n := by
  induction l with
  | nil => simp [findTok] at h
  | cons p rest ih =>
    obtain ⟨s, ty⟩ := p
    rw [findTok] at h
    by_cases hp : tokMatches s content = true
    · rw [if_pos hp] at h
      injection h with h'
      injection h' with h1 h2
      have hs : s ≠ [] := hne (s, ty) (List.mem_cons_self _ _)
      cases s with
      | nil => exact absurd rfl hs
      | cons a as => simp [← h2]
    · rw [if_neg hp] at h
      exact ih (fun q hq => hne q (List.mem_cons_of_mem _ hq)) h

theorem findTok_type {l : List (List Nat × TokenType)} {content : List Nat}
    {t : TokenType} {n : Nat}
    (h : findTok l content = some (t, n)) : ∃ p ∈ l, p.2 = t := by
  induction l with
  | nil => simp [findTok] at h
  | cons p rest ih =>
    obtain ⟨s, ty⟩ := p
    rw [findTok] at h
    by_cases hp : tokMatches s content = true
    · rw [if_pos hp] at h
      injection h with h'
      injection h' with h1 h2
      exact ⟨(s, ty), List.mem_cons_self _ _, h1⟩
    · rw [if_neg hp] at h
      obtain ⟨q, hq, hqt⟩ := ih h
      exact ⟨q, List.mem_cons_of_mem _ hq, hqt⟩

/-- Classification `chooseTok` always reports a positive length (even on empty input,
where the final fallback fires). -/
theorem chooseTok_snd_pos (content : List Nat) : 1 ≤ (chooseTok content).2 := by
  rw [chooseTok]
  cases h : findTok matchToken content with
  | some r =>
    obtain ⟨t, n⟩ := r
    exact findTok_pos (by decide) h
  | none =>
    simp only
    split
    · next h1 => omega
    · split
      · next h2 => omega
      · split
        · next h3 => omega
        · split
          · next h4 => omega
          · split
            · next h5 => omega
            · exact Nat.le_refl 1

/-- The only rule that classifies a span as `Error` is the final fallback,
which always has length 1. -/
theorem chooseTok_error (content : List Nat)
    (h : (chooseTok content).1 = TokenType.Error) :
    chooseTok content = (TokenType.Error, 1) := by
  rw [chooseTok] at h ⊢
  cases hf : findTok matchToken content with
  | some r =>
    obtain ⟨t, n⟩ := r
    exfalso
    rw [hf] at h
    have hall : ∀ p ∈ matchToken, p.2 ≠ TokenType.Error := by decide
    obtain ⟨p, hp, hpt⟩ := findTok_type hf
    have ht : t = TokenType.Error := h
    exact hall p hp (hpt.trans ht)
  | none =>
    simp only at h ⊢
    split_ifs at h ⊢ <;> simp_all

/-! ### Helper lemmas about the scan loop -/

/-- Any iteration budget of at least `content.length - pos` gives the same
result: the loop runs to completion within that many iterations, because
every iteration that continues advances `pos` by at least one. -/
theorem lexIter_fuel (filename : String) (content : List Nat) :
    ∀ (fuel fuel' pos : Nat), content.length - pos ≤ fuel →
      content.length - pos ≤ fuel' →
      lexIter filename content fuel pos = lexIter filename content fuel' pos := by
  intro fuel
  induction fuel with
  | zero =>
    intro fuel' pos h h'
    have hpos : ¬ pos < content.length := by omega
    cases fuel' with
    | zero => rfl
    | succ k => simp [lexIter, hpos]
  | succ k ih =>
    intro fuel' pos h h'
    cases fuel' with
    | zero =>
      have hpos : ¬ pos < content.length := by omega
      simp [lexIter, hpos]
    | succ k' =>
      simp only [lexIter]
      by_cases hpos : pos < content.length
      · simp only [if_pos hpos]
        by_cases hz : (chooseTok (content.drop pos)).2 = 0
        · simp [hz]
        · have hrec := ih k' (pos + (chooseTok (content.drop pos)).2)
            (by omega) (by omega)
          simp [hz, hrec]
      · simp [hpos]

/-- Every token pushed while scanning from `pos` starts at `pos` or later
and has positive length. -/
theorem lexIter_token_bounds (filename : String) (content : List Nat) :
    ∀ (fuel pos : Nat) (t : Token), t ∈ (lexIter filename content fuel pos).1 →
      pos ≤ t.loc.start ∧ 1 ≤ t.loc.length := by
  intro fuel
  induction fuel with
  | zero => intro pos t ht; simp [lexIter] at ht
  | succ k ih =>
    intro pos t ht
    rw [lexIter] at ht
    by_cases hpos : pos < content.length
    · rw [if_pos hpos] at ht
      by_cases hz : (chooseTok (content.drop pos)).2 = 0
      · simp [hz] at ht
      · by_cases he : (chooseTok (content.drop pos)).1 = TokenType.Error
        · simp only [if_neg hz, if_pos he] at ht
          have := ih (pos + (chooseTok (content.drop pos)).2) t ht
          omega
        · simp only [if_neg hz, if_neg he, List.mem_cons] at ht
          rcases ht with rfl | ht
          · refine ⟨Nat.le_refl _, ?_⟩
            simpa using Nat.one_le_iff_ne_zero.mpr hz
          · have := ih (pos + (chooseTok (content.drop pos)).2) t ht
            omega
    · rw [if_neg hpos] at ht
      simp at ht

/-- The pushed tokens are strictly ordered: each one begins at or after the
end of the previous one (hence also strictly to its right). -/
theorem lexIter_chain (filename : String) (content : List Nat) :
    ∀ (fuel pos : Nat),
      List.Chain'
        (fun a b => a.loc.start + a.loc.length ≤ b.loc.start ∧
          a.loc.start < b.loc.start)
        (lexIter filename content fuel pos).1 := by
  intro fuel
  induction fuel with
  | zero => intro pos; simp [lexIter]
  | succ k ih =>
    intro pos
    rw [lexIter]
    by_cases hpos : pos < content.length
    · rw [if_pos hpos]
      by_cases hz : (chooseTok (content.drop pos)).2 = 0
      · simp [hz]
      · by_cases he : (chooseTok (content.drop pos)).1 = TokenType.Error
        · simp only [if_neg hz, if_pos he]
          exact ih (pos + (chooseTok (content.drop pos)).2)
        · simp only [if_neg hz, if_neg he]
          rw [List.chain'_cons']
          refine ⟨?_, ih (pos + (chooseTok (content.drop pos)).2)⟩
          intro b hb
          have hmem : b ∈ (lexIter filename content k
              (pos + (chooseTok (content.drop pos)).2)).1 :=
            List.mem_of_mem_head? hb
          have hbnd := lexIter_token_bounds filename content k
            (pos + (chooseTok (content.drop pos)).2) b hmem
          have hz1 : 1 ≤ (chooseTok (content.drop pos)).2 :=
            Nat.one_le_iff_ne_zero.mpr hz
          constructor
          · exact hbnd.1
          · show pos < b.loc.start
            omega
    · rw [if_neg hpos]
      simp

/-- The consumed spans are contiguous: each starts where the previous one
ended. -/
theorem chunksIter_contig (content : List Nat) :
    ∀ (fuel pos : Nat), chunksContig pos (chunksIter content fuel pos) = true := by
  intro fuel
  induction fuel with
  | zero => intro pos; simp [chunksIter, chunksContig]
  | succ k ih =>
    intro pos
    rw [chunksIter]
    by_cases hpos : pos < content.length
    · rw [if_pos hpos]
      by_cases hz : (chooseTok (content.drop pos)).2 = 0
      · simp [hz, chunksContig]
      · rw [if_neg hz]
        simp [chunksContig, ih (pos + (chooseTok (content.drop pos)).2)]
    · rw [if_neg hpos]; simp [chunksContig]

/-- With enough fuel the consumed spans reach at least the end of the
content. -/
theorem chunksIter_end (content : List Nat) :
    ∀ (fuel pos : Nat), content.length - pos ≤ fuel →
      content.length ≤ chunksEnd pos (chunksIter content fuel pos) := by
  intro fuel
  induction fuel with
  | zero =>
    intro pos h
    have : ¬ pos < content.length := by omega
    simp [chunksIter, chunksEnd]
    omega
  | succ k ih =>
    intro pos h
    rw [chunksIter]
    by_cases hpos : pos < content.length
    · rw [if_pos hpos]
      have hz : (chooseTok (content.drop pos)).2 ≠ 0 := by
        have := chooseTok_snd_pos (content.drop pos)
        omega
      simp only [if_neg hz, chunksEnd]
      exact ih (pos + (chooseTok (content.drop pos)).2) (by omega)
    · rw [if_neg hpos]
      simp [chunksEnd]
      omega

/-- The pushed tokens are exactly the consumed spans that were not
classified `Error`, with identical kinds, starts and lengths. -/
theorem lexIter_chunks (filename : String) (content : List Nat) :
    ∀ (fuel pos : Nat),
      (lexIter filename content fuel pos).1.map
          (fun t => (t.type, t.loc.start, t.loc.length)) =
        (chunksIter content fuel pos).filter
          (fun c => decide (c.1 ≠ TokenType.Error)) := by
  intro fuel
  induction fuel with
  | zero => intro pos; simp [lexIter, chunksIter]
  | succ k ih =>
    intro pos
    rw [lexIter, chunksIter]
    by_cases hpos : pos < content.length
    · rw [if_pos hpos, if_pos hpos]
      by_cases hz : (chooseTok (content.drop pos)).2 = 0
      · simp [hz]
      · by_cases he : (chooseTok (content.drop pos)).1 = TokenType.Error
        · simp only [if_neg hz, if_pos he]
          rw [List.filter_cons_of_neg (by simp [he])]
          exact ih (pos + (chooseTok (content.drop pos)).2)
        · simp only [if_neg hz, if_neg he]
          rw [List.filter_cons_of_pos (by simp [he])]
          simp only [List.map_cons]
          rw [ih (pos + (chooseTok (content.drop pos)).2)]
    · rw [if_neg hpos, if_neg hpos]; simp

/-- No `matchToken` entry matches a content whose first byte differs from
all the entries' first bytes. -/
theorem findTok_matchToken_none {c : Nat} (rest : List Nat)
    (h : c ∉ ([40, 41, 123, 125, 91, 93, 59, 45, 124, 44] : List Nat)) :
    findTok matchToken (c :: rest) = none := by
  simp only [List.mem_cons, List.not_mem_nil, or_false, not_or] at h
  obtain ⟨h1, h2, h3, h4, h5, h6, h7, h8, h9, h10⟩ := h
  simp [matchToken, findTok, tokMatches, Ne.symm h1, Ne.symm h2, Ne.symm h3,
    Ne.symm h4, Ne.symm h5, Ne.symm h6, Ne.symm h7, Ne.symm h8, Ne.symm h9,
    Ne.symm h10]

/-- Function `consumeWhiteSpace` consumes nothing at a byte that is not whitespace,
not `/` and not `#`. -/
theorem wsSkip_eq_zero {c : Nat} (cs : List Nat) (hws : c ∉ whiteSpace)
    (h47 : c ≠ 47) (h35 : c ≠ 35) : wsSkip (c :: cs) = 0 := by
  simp [wsSkip, hws, h47, h35]

/-- When the punctuation, string and whitespace rules all yield nothing and
the whitespace rule yields a positive count, `chooseTok` classifies the
span as `WhiteSpace` of exactly that count. -/
theorem chooseTok_of_ws (c : Nat) (rest : List Nat)
    (hfind : findTok matchToken (c :: rest) = none)
    (hq : c ∉ quotes) (hw : 1 ≤ wsSkip (c :: rest)) :
    chooseTok (c :: rest) = (TokenType.WhiteSpace, wsSkip (c :: rest)) := by
  rw [chooseTok, hfind]
  have hs : consumeStringLiteral (c :: rest) = 0 := by
    simp [consumeStringLiteral, hq]
  have hz : wsSkip (c :: rest) ≠ 0 := by omega
  simp [hs, consumeWhiteSpace, hz]

/-- When the earlier rules all yield nothing and the first byte is a number
character, `chooseTok` classifies the span as a `NumberLiteral` covering
the maximal run of number characters. -/
theorem chooseTok_number (c : Nat) (rest : List Nat)
    (hfind : findTok matchToken (c :: rest) = none)
    (hq : c ∉ quotes) (hws : wsSkip (c :: rest) = 0)
    (hop : c ∉ operatorChar) (hnum : c ∈ numberChar) :
    chooseTok (c :: rest) =
      (TokenType.NumberLiteral, matchesFrom numberChar (c :: rest)) := by
  rw [chooseTok, hfind]
  have hs : consumeStringLiteral (c :: rest) = 0 := by
    simp [consumeStringLiteral, hq]
  have hopz : matchesFrom operatorChar (c :: rest) = 0 := by
    simp [matchesFrom, hop]
  have hnz : matchesFrom numberChar (c :: rest) =
      1 + matchesFrom numberChar rest := by
    simp [matchesFrom, hnum]
  simp [hs, consumeWhiteSpace, hws, hopz, hnz]

/-- Every message the scan loop emits is the `Error`-severity "Unexpected
character" one: in particular the `InternalError` "Illegal empty token"
branch never fires (its guard contradicts `chooseTok_snd_pos`), and the
string-literal scanner emits nothing at all. -/
theorem lexIter_msgs (filename : String) (content : List Nat) :
    ∀ (fuel pos : Nat), ∀ m ∈ (lexIter filename content fuel pos).2,
      m.type = MessageType.Error ∧ m.msg = "Unexpected character" := by
  intro fuel
  induction fuel with
  | zero => intro pos m hm; simp [lexIter] at hm
  | succ k ih =>
    intro pos m hm
    rw [lexIter] at hm
    by_cases hpos : pos < content.length
    · rw [if_pos hpos] at hm
      have hz : (chooseTok (content.drop pos)).2 ≠ 0 := by
        have := chooseTok_snd_pos (content.drop pos)
        omega
      by_cases he : (chooseTok (content.drop pos)).1 = TokenType.Error
      · simp only [if_neg hz, if_pos he, List.mem_cons] at hm
        rcases hm with rfl | hm
        · exact ⟨rfl, rfl⟩
        · exact ih (pos + (chooseTok (content.drop pos)).2) m hm
      · simp only [if_neg hz, if_neg he] at hm
        exact ih (pos + (chooseTok (content.drop pos)).2) m hm
    · rw [if_neg hpos] at hm
      simp at hm

/-! ### Claims -/

/-- C1, counterexample: on the one-byte source `"\x01"` no rule matches,
the byte is consumed as an `Error` span whose token is never pushed, so
the produced tokens (there are none) do not cover `[0, 1)`. -/
theorem C1_counterexample :
    (lex "f" [1]).1 = [] ∧ spansTile 0 1 (lex "f" [1]).1 = false := by
  decide

/-- C1, amended: the spans consumed by the scan loop, in emission order,
are contiguous from offset 0 with no gaps and no overlaps, and they reach
at least the end of the source (the final span can overrun the end when
the source stops inside an unterminated block comment); the produced
tokens are exactly the consumed spans not classified `Error`. -/
theorem C1_amended_spans (filename : String) (content : List Nat) :
    chunksContig 0 (lexChunks content) = true ∧
    content.length ≤ chunksEnd 0 (lexChunks content) ∧
    (lex filename content).1.map (fun t => (t.type, t.loc.start, t.loc.length)) =
      (lexChunks content).filter (fun c => decide (c.1 ≠ TokenType.Error)) :=
  ⟨chunksIter_contig content content.length 0,
   chunksIter_end content content.length 0 (by omega),
   lexIter_chunks filename content content.length 0⟩

/-- C2, code evaluation at the failing input: lexing `"'123\n'foo"`
produces ONE `StringLiteral` token that scans straight through the newline
to the next quote, then a `Symbol` token `foo`, and NO messages — the
claim (and the test suite) requires two `StringLiteral` tokens and two
messages. -/
theorem C2_code_eval :
    lex "f" [39, 49, 50, 51, 10, 39, 102, 111, 111] =
      ([⟨TokenType.StringLiteral, ⟨0, 6, "f"⟩⟩,
        ⟨TokenType.Symbol, ⟨6, 3, "f"⟩⟩], []) := by
  decide

/-- C3, code evaluation at the failing input: lexing the two-byte source
`"/*"` produces a `WhiteSpace` token with `start + length = 3 > 2`: the
unterminated-block-comment scan runs one past the end of the input. -/
theorem C3_code_eval :
    (lex "f" [47, 42]).1 = [⟨TokenType.WhiteSpace, ⟨0, 3, "f"⟩⟩] ∧
    ([47, 42] : List Nat).length < 0 + 3 := by
  decide

/-- C4, code evaluation at the failing input: lexing `"'foo"` (a string
literal left open at end of input) produces a `StringLiteral` token but NO
message — the claim (and the test suite) requires the "Unterminated string
literal, found end of file." message. -/
theorem C4_code_eval :
    lex "f" [39, 102, 111, 111] =
      ([⟨TokenType.StringLiteral, ⟨0, 4, "f"⟩⟩], []) := by
  decide

/-- C5, counterexample: at the unmatched byte `"\x01"` the loop emits the
"Unexpected character" `Error` message but appends NO token at all — the
claim says a token of kind `Error` is appended to the token sequence. -/
theorem C5_counterexample :
    (lex "f" [1]).1 = [] ∧
    (lex "f" [1]).2 =
      [⟨MessageType.Error, ⟨0, 1, "f"⟩, "Unexpected character"⟩] := by
  decide

/-- C5, amended: when no rule matches at a scan position, the loop
consumes exactly one byte and appends one `Error`-severity "Unexpected
character" message at that location, but the `Error` span is skipped — it
is not appended to the token sequence (only non-`Error` spans are). -/
theorem C5_amended_error_step (filename : String) (content : List Nat)
    (pos fuel : Nat) (hpos : pos < content.length)
    (he : (chooseTok (content.drop pos)).1 = TokenType.Error) :
    (chooseTok (content.drop pos)).2 = 1 ∧
    lexIter filename content (fuel + 1) pos =
      ((lexIter filename content fuel (pos + 1)).1,
       ⟨MessageType.Error, ⟨pos, 1, filename⟩, "Unexpected character"⟩ ::
         (lexIter filename content fuel (pos + 1)).2) := by
  have hce := chooseTok_error (content.drop pos) he
  refine ⟨by rw [hce], ?_⟩
  rw [lexIter]
  simp [hpos, hce]

theorem C5_amended_error_step_witness :
    (chooseTok (List.drop 0 [1])).2 = 1 ∧
    lexIter "f" [1] (0 + 1) 0 =
      ((lexIter "f" [1] 0 (0 + 1)).1,
       ⟨MessageType.Error, ⟨0, 1, "f"⟩, "Unexpected character"⟩ ::
         (lexIter "f" [1] 0 (0 + 1)).2) :=
  C5_amended_error_step "f" [1] 0 0 (by decide) (by decide)

/-- C6: if the log already holds a fatal message when `getTree` is
entered, it returns none with no stage run (in particular without lexing,
whatever the tree builder is); and if the log becomes fatal during lexing,
it returns none having run only the lexing stage, never consulting the
tree builder. -/
theorem C6_getTree_blocked (T : Type)
    (build : List Token → List Message → Option T) (ctx : CompileCtx) :
    (done ctx.msgs = true → getTree build ctx = (none, ctx.msgs, [])) ∧
    (done ctx.msgs = false →
      done (ctx.msgs ++ (lex ctx.filename ctx.content).2) = true →
      getTree build ctx =
        (none, ctx.msgs ++ (lex ctx.filename ctx.content).2, ["lex"])) := by
  constructor
  · intro h
    simp [getTree, h]
  · intro h1 h2
    simp [getTree, h1, h2]

theorem C6_getTree_blocked_witness :
    getTree (fun (_ : List Token) (_ : List Message) => (some 0 : Option Nat))
        ⟨"f", [49], [⟨MessageType.Error, ⟨0, 0, "f"⟩, "boom"⟩]⟩ =
      (none, [⟨MessageType.Error, ⟨0, 0, "f"⟩, "boom"⟩], []) ∧
    getTree (fun (_ : List Token) (_ : List Message) => (some 0 : Option Nat))
        ⟨"f", [1], []⟩ =
      (none, [⟨MessageType.Error, ⟨0, 1, "f"⟩, "Unexpected character"⟩],
        ["lex"]) :=
  ⟨(C6_getTree_blocked Nat _ _).1 (by decide),
   (C6_getTree_blocked Nat _ _).2 (by decide) (by decide)⟩

/-- C7, counterexample: `"#a\n"` is a single maximal whitespace/comment
region `[0, 3)` (a `#` line comment plus its newline) but lexes as TWO
`WhiteSpace` tokens, because the line-comment scan stops at, and does not
consume, the newline. -/
theorem C7_counterexample :
    (lex "f" [35, 97, 10]).1 =
      [⟨TokenType.WhiteSpace, ⟨0, 2, "f"⟩⟩,
       ⟨TokenType.WhiteSpace, ⟨2, 1, "f"⟩⟩] := by
  decide

theorem wsSkip_ws {c : Nat} (cs : List Nat) (h : c ∈ whiteSpace) :
    wsSkip (c :: cs) = 1 + wsSkip cs := by
  simp [wsSkip, h]

theorem wsSkip_hash (cs : List Nat) :
    wsSkip (35 :: cs) = 1 + lineSkip cs := by
  simp [wsSkip, whiteSpace]

theorem wsSkip_lineComment (cs : List Nat) :
    wsSkip (47 :: 47 :: cs) = 1 + lineSkip (47 :: cs) := by
  simp [wsSkip, whiteSpace]

theorem wsSkip_blockComment (cs : List Nat) : 1 ≤ wsSkip (47 :: 42 :: cs) := by
  rw [wsSkip]
  simp only [whiteSpace, List.mem_cons, List.not_mem_nil, or_false]
  norm_num
  split <;> omega

/-- Packaging of the rule priority: a byte that matches no punctuation
entry and is not a quote, at which `consumeWhiteSpace` consumes something,
begins a `WhiteSpace` token. -/
theorem chooseTok_ws_of_pos (c : Nat) (rest : List Nat)
    (hfb : c ∉ ([40, 41, 123, 125, 91, 93, 59, 45, 124, 44] : List Nat))
    (hq : c ∉ quotes) (hw : 1 ≤ wsSkip (c :: rest)) :
    (chooseTok (c :: rest)).1 = TokenType.WhiteSpace ∧
    1 ≤ (chooseTok (c :: rest)).2 := by
  have hct := chooseTok_of_ws c rest (findTok_matchToken_none rest hfb) hq hw
  rw [hct]
  exact ⟨rfl, hw⟩

/-- C7, amended: a whitespace byte, a `#`, or a `/` opening `//` or `/*`
always begins a `WhiteSpace` token of positive length; hence a maximal
whitespace/comment region at a scan position is emitted as one or MORE
`WhiteSpace` tokens (a `#` line comment and its closing newline land in two separate tokens),
not always exactly one. -/
theorem C7_amended_whitespace_tokens (c : Nat) (rest : List Nat)
    (h : c ∈ whiteSpace ∨ c = 35 ∨
      (c = 47 ∧ (rest.head? = some 47 ∨ rest.head? = some 42))) :
    (chooseTok (c :: rest)).1 = TokenType.WhiteSpace ∧
    1 ≤ (chooseTok (c :: rest)).2 := by
  rcases h with hws | h35 | ⟨h47, hd⟩
  · have h4 : c = 32 ∨ c = 9 ∨ c = 10 ∨ c = 13 := by
      simpa [whiteSpace] using hws
    rcases h4 with rfl | rfl | rfl | rfl <;>
      exact chooseTok_ws_of_pos _ rest (by decide) (by decide)
        (by rw [wsSkip_ws rest (by decide)]; omega)
  · subst h35
    exact chooseTok_ws_of_pos 35 rest (by decide) (by decide)
      (by rw [wsSkip_hash rest]; omega)
  · subst h47
    rcases hd with hd | hd
    · cases rest with
      | nil => simp at hd
      | cons a cs =>
        have ha : a = 47 := by simpa using hd
        subst ha
        exact chooseTok_ws_of_pos 47 (47 :: cs) (by decide) (by decide)
          (by rw [wsSkip_lineComment cs]; omega)
    · cases rest with
      | nil => simp at hd
      | cons a cs =>
        have ha : a = 42 := by simpa using hd
        subst ha
        exact chooseTok_ws_of_pos 47 (42 :: cs) (by decide) (by decide)
          (wsSkip_blockComment cs)

theorem C7_amended_whitespace_tokens_witness :
    (chooseTok [35]).1 = TokenType.WhiteSpace ∧ 1 ≤ (chooseTok [35]).2 :=
  C7_amended_whitespace_tokens 35 [] (by decide)

/-- C8, counterexample: the two-byte source `".."` — a maximal run
consisting only of `.` — lexes as ONE `Operator` token, not a
`NumberLiteral`: `.` belongs to the operator character set and the
operator rule precedes the number rule. -/
theorem C8_counterexample :
    (lex "f" [46, 46]).1 = [⟨TokenType.Operator, ⟨0, 2, "f"⟩⟩] := by
  decide

/-- C8, amended: a maximal run of digits and `.` that STARTS WITH A DIGIT
becomes one `NumberLiteral` token covering the maximal run of number
characters; a run beginning with `.` is instead taken by the earlier
operator rule, as a bare `.` run becoming an `Operator` token shows. -/
theorem C8_amended_number_runs (c : Nat) (rest : List Nat) (h : c ∈ nums) :
    chooseTok (c :: rest) =
      (TokenType.NumberLiteral, matchesFrom numberChar (c :: rest)) ∧
    1 ≤ matchesFrom numberChar (c :: rest) := by
  have hnum : c ∈ numberChar := List.mem_cons_of_mem _ h
  have hpos : 1 ≤ matchesFrom numberChar (c :: rest) := by
    rw [matchesFrom, if_pos hnum]
    omega
  refine ⟨?_, hpos⟩
  have h10 : c = 48 ∨ c = 49 ∨ c = 50 ∨ c = 51 ∨ c = 52 ∨ c = 53 ∨ c = 54 ∨
      c = 55 ∨ c = 56 ∨ c = 57 := by
    simpa [nums] using h
  rcases h10 with rfl | rfl | rfl | rfl | rfl | rfl | rfl | rfl | rfl | rfl <;>
    exact chooseTok_number _ rest (findTok_matchToken_none rest (by decide))
      (by decide) (wsSkip_eq_zero rest (by decide) (by decide) (by decide))
      (by decide) hnum

theorem C8_amended_number_runs_witness :
    chooseTok [49] = (TokenType.NumberLiteral, matchesFrom numberChar [49]) ∧
    1 ≤ matchesFrom numberChar [49] :=
  C8_amended_number_runs 49 [] (by decide)

/-- C9: `chooseTok` always returns a length of at least 1 (even on an
empty suffix), so the "Illegal empty token" `InternalError` branch of the
scan loop is unreachable — every message `lex` ever emits is the
"Unexpected character" `Error` — and the loop terminates within
`length(content)` iterations: any larger iteration budget produces the
same result. -/
theorem C9_no_empty_token (filename : String) (content : List Nat) :
    1 ≤ (chooseTok content).2 ∧
    (∀ m ∈ (lex filename content).2,
      m.type = MessageType.Error ∧ m.msg = "Unexpected character") ∧
    (∀ extra, lexIter filename content (content.length + extra) 0 =
      lex filename content) :=
  ⟨chooseTok_snd_pos content,
   fun m hm => lexIter_msgs filename content content.length 0 m hm,
   fun extra =>
     lexIter_fuel filename content (content.length + extra) content.length 0
       (by omega) (by omega)⟩

theorem C9_no_empty_token_witness :
    1 ≤ (chooseTok [1]).2 ∧
    ((⟨MessageType.Error, ⟨0, 1, "f"⟩, "Unexpected character"⟩ : Message).type =
        MessageType.Error ∧
      (⟨MessageType.Error, ⟨0, 1, "f"⟩, "Unexpected character"⟩ : Message).msg =
        "Unexpected character") ∧
    lexIter "f" [1] (List.length [1] + 5) 0 = lex "f" [1] :=
  ⟨(C9_no_empty_token "f" [1]).1,
   (C9_no_empty_token "f" [1]).2.1 _ (by decide),
   (C9_no_empty_token "f" [1]).2.2 5⟩

/-- C10: the tokens returned by `lex` are strictly increasing in start
offset, and each token starts at or after the end of the previous one, so
no two returned tokens overlap — even when `Error` spans are skipped in
between. -/
theorem C10_tokens_ordered (filename : String) (content : List Nat) :
    List.Chain'
      (fun a b => a.loc.start + a.loc.length ≤ b.loc.start ∧
        a.loc.start < b.loc.start)
      (lex filename content).1 :=
  lexIter_chain filename content content.length 0

end Tako
